import Mathlib

/-!
# Verification of the versifier CLI (`versifier/__main__.py`)

A shallow embedding of the `versifier` command-line tool.  The CLI layer
(`src/versifier/__main__.py`) is translated directly; the collaborator
modules (`versifier.core`, `versifier.config`, `versifier.poetry`,
`versifier.compiler`) are not shipped under `src/`, so the parts of them
the claims depend on are modelled from the specification (each such
definition says so in its doc comment).  Side-effecting commands are
embedded as pure functions from their inputs (CLI options, external
collaborator responses) to the list of externally visible events they
perform, in order.
-/

namespace Versifier

/-- Modelled from the spec (§3 data model): one parsed requirement line:
package name, optional version constraint (operator included, passed
through opaquely), optional environment marker, optional comment, and a
main/dev tag. -/
structure RequirementSpec where
  name : String
  version_constraint : Option String := none
  environment_marker : Option String := none
  comment : Option String := none
  is_dev : Bool := false
deriving DecidableEq, Repr

/-- Modelled from the spec (§4.1 edge cases, §9 design note): result of
parsing one requirement line.  Unsupported forms (VCS/URL lines,
`-r file` include directives) are surfaced as a distinct variant, as the
spec mandates, rather than silently skipped. -/
inductive ParseResult where
  | ok (spec : RequirementSpec)
  | skip
  | unsupported
deriving DecidableEq, Repr

/-- Whitespace test used by the line parser (Python `str.strip`). -/
def ws (c : Char) : Bool := c.isWhitespace

/-- Drop trailing whitespace from a character list. -/
def rstrip (l : List Char) : List Char := (l.reverse.dropWhile ws).reverse

/-- Drop leading and trailing whitespace (Python `str.strip`). -/
def trim (l : List Char) : List Char := rstrip (l.dropWhile ws)

/-- Boolean prefix test on character lists. -/
def isPre : List Char → List Char → Bool
  | [], _ => true
  | _ :: _, [] => false
  | a :: as, b :: bs => a = b && isPre as bs

/-- Boolean contiguous-sublist test on character lists. -/
def hasSublist (pat : List Char) : List Char → Bool
  | [] => pat.isEmpty
  | c :: rest => isPre pat (c :: rest) || hasSublist pat rest

/-- Split a character list at the first occurrence of `t` (the separator
itself is dropped); `none` when `t` does not occur. -/
def splitFirst (t : Char) : List Char → Option (List Char × List Char)
  | [] => none
  | c :: rest =>
    if c = t then some ([], rest)
    else
      match splitFirst t rest with
      | some (a, b) => some (c :: a, b)
      | none => none

/-- Modelled from the spec (§4.1): does a version-constraint operator
(`==`, `>=`, `<=`, `~=`, `!=`, `>`, `<`) start at the head of the list? -/
def isOpStart : List Char → Bool
  | [] => false
  | [c] => c = '>' || c = '<'
  | c1 :: c2 :: _ =>
    c1 = '>' || c1 = '<' || ((c1 = '=' || c1 = '~' || c1 = '!') && c2 = '=')

/-- Characters a constraint operator can start with. -/
def opChars : List Char := ['=', '<', '>', '~', '!']

/-- Split a character list at the first position where a constraint
operator starts; the operator stays with the right part (it is kept
inside the version constraint).  `none` when no operator occurs. -/
def splitAtOp : List Char → Option (List Char × List Char)
  | [] => none
  | c :: rest =>
    if isOpStart (c :: rest) then some ([], c :: rest)
    else
      match splitAtOp rest with
      | some (a, b) => some (c :: a, b)
      | none => none

/-- Modelled from the spec (§4.1 contract of the Requirement Line
Parser, with the `Unsupported` mandate of §9).  Final stage: split the
remaining specifier into name and version constraint at the first
occurrence of a constraint operator (the constraint keeps the operator);
`version_constraint` is `none` when no operator occurs; every component
is stripped, marker and comment stored verbatim (never evaluated). -/
def parseNameVer (nv : List Char) (marker comment : Option (List Char)) :
    ParseResult :=
  match splitAtOp nv with
  | some (a, b) =>
    ParseResult.ok
      { name := String.mk (trim a)
        version_constraint := some (String.mk (trim b))
        environment_marker := marker.map String.mk
        comment := comment.map String.mk }
  | none =>
    ParseResult.ok
      { name := String.mk (trim nv)
        version_constraint := none
        environment_marker := marker.map String.mk
        comment := comment.map String.mk }

/-- Split off the environment marker at the first `;` (spec §4.1),
stripped, then split name from constraint. -/
def parseSpecMarker (sm : List Char) (comment : Option (List Char)) :
    ParseResult :=
  match splitFirst ';' sm with
  | some (a, b) => parseNameVer a (some (trim b)) comment
  | none => parseNameVer sm none comment

/-- The parser body on an already-stripped line (spec §4.1): empty and
`#`-comment lines are skipped; VCS/URL-style lines and `-r` include
directives are `unsupported`; otherwise split off the trailing comment
at the first `#` (stripped) and continue. -/
def parseBody (t : List Char) : ParseResult :=
  if t = [] then ParseResult.skip
  else if t.head? = some '#' then ParseResult.skip
  else if hasSublist [' ', '@', ' '] t || isPre ['-', 'r', ' '] t then
    ParseResult.unsupported
  else
    match splitFirst '#' t with
    | some (a, b) => parseSpecMarker a (some (trim b))
    | none => parseSpecMarker t none

def parseChars (line : List Char) : ParseResult := parseBody (trim line)

/-- Parse one textual requirement line (spec §4.1). -/
def parse (line : String) : ParseResult := parseChars line.data

/-- Modelled from the spec (§4.1 reverse operation): render a spec back
to requirement-line syntax: `name[constraint]`, then ` ; marker` when a
marker is present, then ` # comment` when `include_comments` is set and
a comment exists; `include_specifiers = false` omits the constraint. -/
def renderChars (s : RequirementSpec)
    (include_specifiers include_comments : Bool) : List Char :=
  let base :=
    s.name.data ++
      (if include_specifiers then
        (match s.version_constraint with
         | some v => v.data
         | none => [])
      else [])
  let withMarker :=
    match s.environment_marker with
    | some m => base ++ (' ' :: ';' :: ' ' :: m.data)
    | none => base
  match s.comment with
  | some c =>
    if include_comments then withMarker ++ (' ' :: '#' :: ' ' :: c.data)
    else withMarker
  | none => withMarker

/-- Render a spec to a requirement line (spec §4.1). -/
def render (s : RequirementSpec)
    (include_specifiers include_comments : Bool) : String :=
  String.mk (renderChars s include_specifiers include_comments)

/-- Modelled from the spec (§3): name normalization for "the same
package": case-insensitive after treating `-`, `_` and `.` as
equivalent separators. -/
def normChar (c : Char) : Char :=
  if c = '-' || c = '.' || c = '_' then '-' else c.toLower

/-- Normalize a package name for comparison (spec §3 invariant). -/
def normName (s : String) : String := String.mk (s.data.map normChar)

/-- Modelled from the spec (§3, §4.3): one entry of a manifest
dependency section: name, version constraint and optional markers, as
listed by the external project-manager process. -/
structure ManifestEntry where
  name : String
  version_constraint : Option String := none
  environment_marker : Option String := none
deriving DecidableEq, Repr

/-- Modelled from the spec (§4.3): convert a structured manifest entry
into a `RequirementSpec` directly (no text parsing). -/
def entryToSpec (dev : Bool) (e : ManifestEntry) : RequirementSpec :=
  { name := e.name, version_constraint := e.version_constraint,
    environment_marker := e.environment_marker, comment := none,
    is_dev := dev }

/-- The manifest state visible through the Manifest Adapter: the ordered
main and dev dependency sections. -/
structure PoetryState where
  main : List ManifestEntry
  dev : List ManifestEntry
deriving DecidableEq, Repr

/-- Keep only successfully parsed specs. -/
def parsedOk : ParseResult → Option RequirementSpec
  | ParseResult.ok s => some s
  | _ => none

/-- Modelled from the spec (§4.3 Dependency Exporter): main-section
entries, then dev-section entries when `include_dev` is set, then the
parsed `extra_requirements`; then the filters: drop a spec whose
normalized name is in the (normalized) exclude set, and, when `markers`
is non-empty, drop a spec whose marker is not exactly one of the
supplied marker strings (exact string membership, no evaluation). -/
def exportSpecs (st : PoetryState) (exclude : List String)
    (include_dev : Bool) (extra_requirements markers : List String) :
    List RequirementSpec :=
  let entries :=
    st.main.map (entryToSpec false) ++
      (if include_dev then st.dev.map (entryToSpec true) else [])
  let extras := extra_requirements.filterMap (fun l => parsedOk (parse l))
  (entries ++ extras).filter fun s =>
    !(exclude.map normName).contains (normName s.name) &&
      (markers.isEmpty || (markers.map some).contains s.environment_marker)

/-- Modelled from the spec (§4.3): the rendered lines of one export, in
the final filtered order. -/
def exportLines (st : PoetryState) (include_specifiers include_comments : Bool)
    (exclude : List String) (include_dev : Bool)
    (extra_requirements markers : List String) : List String :=
  (exportSpecs st exclude include_dev extra_requirements markers).map
    (fun s => render s include_specifiers include_comments)

/-- Externally visible I/O events of the export command: a `print` call
(stdout), and opening / writing / closing the output file. -/
inductive SinkEvent where
  | printLine (line : String)
  | openFile (path : String)
  | writeFile (path : String) (data : String)
  | closeFile (path : String)
deriving DecidableEq, Repr

/-- Modelled from the spec (§4.3): the exporter core invokes the
caller-supplied `callback` once per rendered line, in order, and
performs no I/O of its own — its events are exactly those of the callback. -/
def export_to_requirements_txt (st : PoetryState)
    (include_specifiers include_comments : Bool) (exclude : List String)
    (include_dev_requirements : Bool) (extra_requirements markers : List String)
    (callback : String → SinkEvent) : List SinkEvent :=
  (exportLines st include_specifiers include_comments exclude
      include_dev_requirements extra_requirements markers).map callback

/-- CLI options of `poetry_to_requirements` (`__main__.py` lines 48–56),
with the defaults click supplies. -/
structure ExportOptions where
  output : String := ""
  poetry_path : String := "poetry"
  exclude_specifiers : Bool := false
  include_comments : Bool := false
  include_dev_requirements : Bool := false
  extra_requirements : List String := []
  markers : List String := []
  config : String := "pyproject.toml"
  private_packages : List String := []
deriving DecidableEq, Repr

/-- `__main__.py` lines 68–69: the exclusion set handed to the exporter
is the `--private-packages` flag values, falling back to the private
packages read from the config file when the flag supplied none.
`configPrivates` stands for `get_private_packages_from_pyproject`. -/
def excludeForExport (opts : ExportOptions) (configPrivates : List String) :
    List String :=
  if opts.private_packages.isEmpty then configPrivates
  else opts.private_packages

/-- `__main__.py` line 73: the `include_specifiers` argument of the exporter
is the negation of the `--exclude-specifiers` flag. -/
def exporterIncludeSpecifiers (opts : ExportOptions) : Bool :=
  !opts.exclude_specifiers

/-- `__main__.py` lines 57–86 (`poetry_to_requirements`): build the
exporter arguments, then either call it with `print` as the callback
(when `--output` is the empty string, its default) or open the output
file and call it with a callback writing each line plus one newline. -/
def poetry_to_requirements (opts : ExportOptions)
    (configPrivates : List String) (st : PoetryState) : List SinkEvent :=
  let run := fun (callback : String → SinkEvent) =>
    export_to_requirements_txt st (exporterIncludeSpecifiers opts)
      opts.include_comments (excludeForExport opts configPrivates)
      opts.include_dev_requirements opts.extra_requirements opts.markers
      callback
  if opts.output = "" then run SinkEvent.printLine
  else
    SinkEvent.openFile opts.output ::
      run (fun line => SinkEvent.writeFile opts.output (line ++ "\n")) ++
      [SinkEvent.closeFile opts.output]

/-- The data written to file `path` by a trace, in order. -/
def fileWrites (path : String) (tr : List SinkEvent) : List String :=
  tr.filterMap fun e =>
    match e with
    | SinkEvent.writeFile p d => if p = path then some d else none
    | _ => none

/-- Externally visible events of the obfuscation commands: acquiring and
removing the scoped temporary directory, constructing the collaborator
objects, the extract and obfuscate stage calls, and raising a
`ClickException`. -/
inductive ObfEvent where
  | createTempDir (td : String)
  | newExtractor (poetry_path : String)
  | extractPackages (output_dir : String) (packages : List String)
      (extra_requirements : List String)
  | newObfuscator (nuitka_path : String)
  | obfuscatePackages (packages : List String) (root_dir : String)
      (output_dir : Option String)
  | removeTempDir (td : String)
  | raiseClick (msg : String)
deriving DecidableEq, Repr

/-- CLI options of `obfuscate_modules` (`__main__.py` lines 117–120),
with the defaults click supplies. -/
structure ObfuscateModulesOptions where
  nuitka_path : String := "nuitka3"
  root : String := "."
  output : Option String := none
  modules : List String := []
deriving DecidableEq, Repr

/-- `__main__.py` lines 121–138 (`obfuscate_modules`): when no modules
were supplied, fall back to `list_all_packages(root)` (here the input
`listedPackages`); when that still yields nothing, raise the
`ClickException` "No packages found" before constructing the obfuscator;
otherwise construct the obfuscator and compile the modules in place
under `root`. -/
def obfuscate_modules (opts : ObfuscateModulesOptions)
    (listedPackages : List String) : List ObfEvent :=
  let modules :=
    if opts.modules.isEmpty then listedPackages else opts.modules
  if modules.isEmpty then [ObfEvent.raiseClick "No packages found"]
  else
    [ObfEvent.newObfuscator opts.nuitka_path,
     ObfEvent.obfuscatePackages modules opts.root opts.output]

/-- CLI options of `obfuscate_private_packages` (`__main__.py` lines
142–147), with the defaults click supplies. -/
structure ObfuscatePrivateOptions where
  nuitka_path : String := "nuitka3"
  poetry_path : String := "poetry"
  root : String := "."
  output : Option String := none
  extra_requirements : List String := []
  private_packages : List String := []
deriving DecidableEq, Repr

/-- `__main__.py` lines 156–157: the private-package set is the flag
values, else the list read from the config file (the input
`configPrivates` stands for `get_private_packages_from_pyproject`). -/
def resolvedPrivatePackages (opts : ObfuscatePrivateOptions)
    (configPrivates : List String) : List String :=
  if opts.private_packages.isEmpty then configPrivates
  else opts.private_packages

/-- `__main__.py` lines 148–175 (`obfuscate_private_packages`): resolve
the private-package set; when empty, raise "No private packages found"
before creating the staging directory.  Otherwise enter the
`TemporaryDirectory()` scope `td`, extract the packages into `td`, then
obfuscate them with `root_dir = td`; the scope guarantees
`removeTempDir` on every exit path, including when either stage raises
(`extractErr` and `obfuscateErr` are the outcomes of the two stages; a
raised error propagates after the cleanup). -/
def obfuscate_private_packages (opts : ObfuscatePrivateOptions)
    (configPrivates : List String) (td : String)
    (extractErr obfuscateErr : Option String) : List ObfEvent :=
  let pkgs := resolvedPrivatePackages opts configPrivates
  if pkgs.isEmpty then [ObfEvent.raiseClick "No private packages found"]
  else
    ObfEvent.createTempDir td ::
      ObfEvent.newExtractor opts.poetry_path ::
      ObfEvent.extractPackages td pkgs opts.extra_requirements ::
      match extractErr with
      | some e => [ObfEvent.removeTempDir td, ObfEvent.raiseClick e]
      | none =>
        ObfEvent.newObfuscator opts.nuitka_path ::
          ObfEvent.obfuscatePackages pkgs td opts.output ::
          match obfuscateErr with
          | some e => [ObfEvent.removeTempDir td, ObfEvent.raiseClick e]
          | none => [ObfEvent.removeTempDir td]

/-- Manifest Adapter operations the import command performs: a
`poetry.init_if_needed()` call, and one `add` per surviving spec. -/
inductive PoetryOp where
  | initIfNeeded
  | add (name : String) (version_constraint : Option String) (is_dev : Bool)
deriving DecidableEq, Repr

/-- Modelled from the spec (§4.2 Dependency Importer): read each
requirements file (`readFile` stands for the filesystem) line by line,
parse with the Requirement Line Parser, tag main vs dev by source list,
drop a spec whose normalized name is in the exclude set, and add each
surviving spec, in file order then line order (skipped and unsupported
lines produce no manifest operation). -/
def importOp (exclude : List String) (is_dev : Bool) (line : String) :
    Option PoetryOp :=
  match parse line with
  | ParseResult.ok s =>
    if (exclude.map normName).contains (normName s.name) then none
    else some (PoetryOp.add s.name s.version_constraint is_dev)
  | _ => none

/-- Modelled from the spec (§4.2, continued): the importer runs
`importOp` over every line of every file, main files first, dev files
after. -/
def add_from_requirements_txt (readFile : String → List String)
    (requirements dev_requirements exclude : List String) : List PoetryOp :=
  (requirements.flatMap fun f =>
    (readFile f).filterMap (importOp exclude false)) ++
  (dev_requirements.flatMap fun f =>
    (readFile f).filterMap (importOp exclude true))

/-- CLI options of `requirements_to_poetry` (`__main__.py` lines 23–27),
with the defaults click supplies. -/
structure ImportOptions where
  poetry_path : String := "poetry"
  requirements : List String := []
  dev_requirements : List String := []
  exclude : List String := []
  add_only : Bool := false
deriving DecidableEq, Repr

/-- `__main__.py` lines 28–44 (`requirements_to_poetry`): unless
`--add-only` is set, call `poetry.init_if_needed()` first; then run the
importer, whose manifest operations are the add calls. -/
def requirements_to_poetry (opts : ImportOptions)
    (readFile : String → List String) : List PoetryOp :=
  (if opts.add_only then [] else [PoetryOp.initIfNeeded]) ++
    add_from_requirements_txt readFile opts.requirements
      opts.dev_requirements opts.exclude

end Versifier

namespace Versifier

/-- `dropWhile` keeps a list whose head fails the predicate. -/
theorem dropWhile_ws_cons_self {a : Char} (l : List Char)
    (h : ws a = false) : (a :: l).dropWhile ws = a :: l := by
  simp [List.dropWhile_cons, h]

/-- If `dropWhile` keeps a cons, its head fails the predicate. -/
theorem ws_head_false_of_dropWhile {a : Char} {l : List Char}
    (h : (a :: l).dropWhile ws = a :: l) : ws a = false := by
  by_cases hw : ws a = true
  · rw [List.dropWhile_cons, if_pos hw] at h
    have hlen := congrArg List.length h
    have hle := (List.dropWhile_sublist (l := l) ws).length_le
    simp at hlen
    omega
  · simpa using hw

/-- `rstrip` keeps a list ending in a non-whitespace character. -/
theorem rstrip_concat {b : Char} (l : List Char) (h : ws b = false) :
    rstrip (l ++ [b]) = l ++ [b] := by
  simp [rstrip, List.reverse_append, dropWhile_ws_cons_self _ h]

/-- A trimmed list is untouched by `dropWhile`. -/
theorem dropWhile_ws_of_trim {l : List Char} (h : trim l = l) :
    l.dropWhile ws = l := by
  have hsub := List.dropWhile_sublist (l := l) ws
  refine hsub.eq_of_length ?_
  have h1 := hsub.length_le
  have hsub2 := List.dropWhile_sublist (l := (l.dropWhile ws).reverse) ws
  have h2 := hsub2.length_le
  have hlen := congrArg List.length h
  simp only [trim, rstrip, List.length_reverse] at hlen h2
  omega

/-- A trimmed list is untouched by `rstrip`. -/
theorem rstrip_of_trim {l : List Char} (h : trim l = l) :
    rstrip l = l := by
  have hd := dropWhile_ws_of_trim h
  calc rstrip l = rstrip (l.dropWhile ws) := by rw [hd]
    _ = l := h

/-- The head of a nonempty trimmed list is not whitespace. -/
theorem ws_head_false_of_trim {a : Char} {l : List Char}
    (h : trim (a :: l) = a :: l) : ws a = false :=
  ws_head_false_of_dropWhile (dropWhile_ws_of_trim h)

/-- The last element of a trimmed list is not whitespace. -/
theorem ws_last_false_of_trim {b : Char} {l : List Char}
    (h : trim (l ++ [b]) = l ++ [b]) : ws b = false := by
  have hr := rstrip_of_trim h
  have h2 : List.dropWhile ws (b :: l.reverse) = b :: l.reverse := by
    have := congrArg List.reverse hr
    simp only [rstrip, List.reverse_reverse, List.reverse_append,
      List.reverse_cons, List.reverse_nil, List.nil_append] at this
    simpa using this
  exact ws_head_false_of_dropWhile h2

/-- A list wrapped in non-whitespace characters is already trimmed. -/
theorem trim_sandwich {a b : Char} (l : List Char)
    (ha : ws a = false) (hb : ws b = false) :
    trim (a :: (l ++ [b])) = a :: (l ++ [b]) := by
  have h1 : (a :: (l ++ [b])).dropWhile ws = a :: (l ++ [b]) :=
    dropWhile_ws_cons_self _ ha
  have h2 : rstrip ((a :: l) ++ [b]) = (a :: l) ++ [b] :=
    rstrip_concat _ hb
  simp only [trim, h1]
  simpa using h2

/-- Leading whitespace is discarded by `trim`. -/
theorem trim_space_cons (l : List Char) : trim (' ' :: l) = trim l := by
  have hws : ws ' ' = true := rfl
  simp [trim, List.dropWhile_cons, hws]

/-- A trailing space is discarded by `trim` on a trimmed list. -/
theorem trim_concat_space {l : List Char} (h : trim l = l) :
    trim (l ++ [' ']) = l := by
  cases l with
  | nil => rfl
  | cons a l' =>
    have ha : ws a = false := ws_head_false_of_trim h
    have hr := rstrip_of_trim h
    have hrev : ((a :: l').reverse).dropWhile ws = (a :: l').reverse := by
      have := congrArg List.reverse hr
      simpa [rstrip] using this
    have hws : ws ' ' = true := rfl
    calc trim ((a :: l') ++ [' '])
        = rstrip (a :: (l' ++ [' '])) := by
          simp only [trim, List.cons_append]
          rw [dropWhile_ws_cons_self _ ha]
      _ = a :: l' := by
          simp only [rstrip, List.reverse_cons, List.reverse_append]
          simp only [List.reverse_cons, List.reverse_nil, List.nil_append,
            List.cons_append, List.dropWhile_cons, hws, if_pos]
          rw [show l'.reverse ++ [a] = (a :: l').reverse by simp, hrev]
          simp
      _ = a :: l' := rfl

/-- A space-wrapped trimmed list strips back to itself. -/
theorem trim_space_wrap {l : List Char} (h : trim l = l) :
    trim (' ' :: (l ++ [' '])) = l := by
  rw [trim_space_cons, trim_concat_space h]

/-- `splitFirst` splits at the first occurrence of the separator. -/
theorem splitFirst_append {t : Char} {xs : List Char} (ys : List Char)
    (h : t ∉ xs) : splitFirst t (xs ++ t :: ys) = some (xs, ys) := by
  induction xs with
  | nil => simp [splitFirst]
  | cons a as ih =>
    have ha : ¬(a = t) := fun he => h (he ▸ List.mem_cons_self a as)
    have hh : t ∉ as := fun hm => h (List.mem_cons_of_mem a hm)
    simp [splitFirst, ha, ih hh]

/-- No operator starts at a character outside `opChars`. -/
theorem isOpStart_cons_false {a : Char} (l : List Char)
    (h : a ∉ opChars) : isOpStart (a :: l) = false := by
  simp only [opChars, List.mem_cons, List.not_mem_nil, or_false] at h
  push_neg at h
  obtain ⟨h1, h2, h3, h4, h5⟩ := h
  cases l <;> simp [isOpStart, h1, h2, h3, h4, h5]

/-- An operator start survives appending on the right. -/
theorem isOpStart_append {v : List Char} (l : List Char)
    (h : isOpStart v = true) : isOpStart (v ++ l) = true := by
  match v with
  | [] => simp [isOpStart] at h
  | [c] =>
    cases l with
    | nil => simpa using h
    | cons d ds =>
      simp only [isOpStart, Bool.or_eq_true, decide_eq_true_eq] at h
      simp [isOpStart, h]
  | c1 :: c2 :: rest =>
    simp only [isOpStart] at h
    simp [isOpStart, h]

/-- `splitAtOp` splits exactly at the boundary between an operator-free
name and a constraint beginning with an operator. -/
theorem splitAtOp_append {n v : List Char}
    (hn : ∀ a ∈ n, a ∉ opChars) (hv : isOpStart v = true) :
    splitAtOp (n ++ v) = some (n, v) := by
  induction n with
  | nil =>
    cases v with
    | nil => simp [isOpStart] at hv
    | cons c cs => simp [splitAtOp, hv]
  | cons a as ih =>
    have hfalse : isOpStart (a :: (as ++ v)) = false :=
      isOpStart_cons_false _ (hn a (List.mem_cons_self a as))
    have ihh := ih (fun x hx => hn x (List.mem_cons_of_mem a hx))
    simp [splitAtOp, hfalse, ihh]

/-- A prefix test fails when the pattern holds a character the target
lacks. -/
theorem isPre_false_of_not_mem {pat l : List Char} {c : Char}
    (hc : c ∈ pat) (h : c ∉ l) : isPre pat l = false := by
  induction pat generalizing l with
  | nil => cases hc
  | cons p ps ih =>
    cases l with
    | nil =>
      simp [isPre]
    | cons b bs =>
      rcases List.mem_cons.mp hc with hcp | hcp
      · subst hcp
        by_cases hpb : c = b
        · subst hpb
          exact absurd (List.mem_cons_self c bs) h
        · simp [isPre, hpb]
      · have hcb : c ∉ bs := fun hm => h (List.mem_cons_of_mem b hm)
        simp [isPre, ih hcp hcb]

/-- A sublist test fails when the pattern holds a character the target
lacks. -/
theorem hasSublist_false_of_not_mem {pat l : List Char} {c : Char}
    (hc : c ∈ pat) (h : c ∉ l) : hasSublist pat l = false := by
  induction l with
  | nil =>
    cases pat with
    | nil => cases hc
    | cons p ps => simp [hasSublist]
  | cons b bs ih =>
    have hcb : c ∉ bs := fun hm => h (List.mem_cons_of_mem b hm)
    simp [hasSublist, isPre_false_of_not_mem hc h, ih hcb]

/-- `importOp` produces nothing but `add` operations. -/
theorem importOp_is_add (excl : List String) (dv : Bool) (line : String)
    (op : PoetryOp) (h : importOp excl dv line = some op) :
    ∃ n c d, op = PoetryOp.add n c d := by
  unfold importOp at h
  split at h
  · split at h
    · cases h
    · exact ⟨_, _, _, (Option.some_inj.mp h).symm⟩
  · cases h

/-- Every manifest operation the importer emits is an `add`. -/
theorem add_from_requirements_txt_ops (readFile : String → List String)
    (reqs devs excl : List String) :
    ∀ op ∈ add_from_requirements_txt readFile reqs devs excl,
      ∃ n c d, op = PoetryOp.add n c d := by
  intro op hop
  simp only [add_from_requirements_txt, List.mem_append, List.mem_flatMap,
    List.mem_filterMap] at hop
  rcases hop with ⟨f, _, line, _, hsome⟩ | ⟨f, _, line, _, hsome⟩
  · exact importOp_is_add excl false line op hsome
  · exact importOp_is_add excl true line op hsome

/-- C10: in `requirements_to_poetry`, unless `--add-only` is set, the
manifest is initialized (one `init_if_needed` call) before any
requirement is added; with `--add-only` set no initialization call is
made and the only manifest operations are the add calls produced by
importing the requirements, dev-requirements and exclude lists. -/
theorem claim_C10 (opts : ImportOptions) (readFile : String → List String) :
    (opts.add_only = false →
      requirements_to_poetry opts readFile =
        PoetryOp.initIfNeeded ::
          add_from_requirements_txt readFile opts.requirements
            opts.dev_requirements opts.exclude) ∧
    (opts.add_only = true →
      requirements_to_poetry opts readFile =
        add_from_requirements_txt readFile opts.requirements
          opts.dev_requirements opts.exclude ∧
      ∀ op ∈ requirements_to_poetry opts readFile,
        ∃ n c d, op = PoetryOp.add n c d) := by
  constructor
  · intro h
    simp [requirements_to_poetry, h]
  · intro h
    have htr : requirements_to_poetry opts readFile =
        add_from_requirements_txt readFile opts.requirements
          opts.dev_requirements opts.exclude := by
      simp [requirements_to_poetry, h]
    refine ⟨htr, ?_⟩
    rw [htr]
    exact add_from_requirements_txt_ops readFile _ _ _

/-- Witness for C10 at a concrete import: one requirements file with two
lines, one excluded. -/
theorem claim_C10_witness :
    requirements_to_poetry
        { requirements := ["requirements.txt"], exclude := ["bar"],
          add_only := true }
        (fun _ => ["foo==1.0", "bar==2.0"]) =
      add_from_requirements_txt (fun _ => ["foo==1.0", "bar==2.0"])
        ["requirements.txt"] [] ["bar"] ∧
    requirements_to_poetry
        { requirements := ["requirements.txt"], exclude := ["bar"] }
        (fun _ => ["foo==1.0", "bar==2.0"]) =
      PoetryOp.initIfNeeded ::
        add_from_requirements_txt (fun _ => ["foo==1.0", "bar==2.0"])
          ["requirements.txt"] [] ["bar"] := by
  constructor
  · exact ((claim_C10
      { requirements := ["requirements.txt"], exclude := ["bar"],
        add_only := true }
      (fun _ => ["foo==1.0", "bar==2.0"])).2 rfl).1
  · exact (claim_C10
      { requirements := ["requirements.txt"], exclude := ["bar"] }
      (fun _ => ["foo==1.0", "bar==2.0"])).1 rfl

/-- C9: `obfuscate_modules` with no modules given and none listed under
the root fails with "No packages found" before constructing the
obfuscator or compiling anything; `obfuscate_private_packages` with no
private packages from the command line or the configuration fails with
"No private packages found" before creating the staging directory or
extracting anything. -/
theorem claim_C9 (mopts : ObfuscateModulesOptions) (listed : List String)
    (popts : ObfuscatePrivateOptions) (cfg : List String) (td : String)
    (e1 e2 : Option String) :
    (mopts.modules = [] → listed = [] →
      obfuscate_modules mopts listed =
        [ObfEvent.raiseClick "No packages found"]) ∧
    (popts.private_packages = [] → cfg = [] →
      obfuscate_private_packages popts cfg td e1 e2 =
        [ObfEvent.raiseClick "No private packages found"]) := by
  constructor
  · intro h1 h2
    simp [obfuscate_modules, h1, h2]
  · intro h1 h2
    simp [obfuscate_private_packages, resolvedPrivatePackages, h1, h2]

/-- Witness for C9: both commands at empty package sets. -/
theorem claim_C9_witness :
    obfuscate_modules {} [] = [ObfEvent.raiseClick "No packages found"] ∧
    obfuscate_private_packages {} [] "tmp" none none =
      [ObfEvent.raiseClick "No private packages found"] :=
  ⟨(claim_C9 {} [] {} [] "tmp" none none).1 rfl rfl,
   (claim_C9 {} [] {} [] "tmp" none none).2 rfl rfl⟩

/-- C6: in `obfuscate_private_packages` the staging directory is a
scoped resource: whenever it is created it is also removed, on every
exit path — for every outcome of the extraction and obfuscation stages,
including the ones that raise. -/
theorem claim_C6 (opts : ObfuscatePrivateOptions) (cfg : List String)
    (td : String) (e1 e2 : Option String)
    (h : ObfEvent.createTempDir td ∈
      obfuscate_private_packages opts cfg td e1 e2) :
    ObfEvent.removeTempDir td ∈
      obfuscate_private_packages opts cfg td e1 e2 := by
  by_cases hp : resolvedPrivatePackages opts cfg = []
  · simp [obfuscate_private_packages, List.isEmpty_iff, hp] at h
  · cases e1 <;> cases e2 <;>
      simp [obfuscate_private_packages, List.isEmpty_iff, hp]

/-- Witness for C6: a run whose obfuscation stage raises still removes
the staging directory. -/
theorem claim_C6_witness :
    ObfEvent.removeTempDir "tmp" ∈
      obfuscate_private_packages { private_packages := ["pkg"] } []
        "tmp" none (some "compile failed") :=
  claim_C6 { private_packages := ["pkg"] } [] "tmp" none
    (some "compile failed") (by decide)

/-- C7: `obfuscate_private_packages` chains Extractor and Obfuscator as
a two-stage pipeline: on the successful-extraction path the trace begins
with extraction of the full private-package set into the staging
directory `td` strictly before the obfuscation call, whose `root_dir` is
exactly the extraction output directory `td` and whose package set is
identical; and any obfuscation event at all has that shape and only
occurs when extraction did not raise. -/
theorem claim_C7 (opts : ObfuscatePrivateOptions) (cfg : List String)
    (td : String) (e1 e2 : Option String) :
    (e1 = none → resolvedPrivatePackages opts cfg ≠ [] →
      ∃ rest, obfuscate_private_packages opts cfg td e1 e2 =
        ObfEvent.createTempDir td ::
          ObfEvent.newExtractor opts.poetry_path ::
          ObfEvent.extractPackages td (resolvedPrivatePackages opts cfg)
            opts.extra_requirements ::
          ObfEvent.newObfuscator opts.nuitka_path ::
          ObfEvent.obfuscatePackages (resolvedPrivatePackages opts cfg)
            td opts.output :: rest) ∧
    (∀ p r o, ObfEvent.obfuscatePackages p r o ∈
        obfuscate_private_packages opts cfg td e1 e2 →
      e1 = none ∧ r = td ∧ p = resolvedPrivatePackages opts cfg) := by
  constructor
  · rintro rfl hp
    cases e2 with
    | none =>
      refine ⟨[ObfEvent.removeTempDir td], ?_⟩
      simp [obfuscate_private_packages, List.isEmpty_iff, hp]
    | some e =>
      refine ⟨[ObfEvent.removeTempDir td, ObfEvent.raiseClick e], ?_⟩
      simp [obfuscate_private_packages, List.isEmpty_iff, hp]
  · intro p r o hmem
    by_cases hp : resolvedPrivatePackages opts cfg = []
    · simp [obfuscate_private_packages, List.isEmpty_iff, hp] at hmem
    · cases e1 <;> cases e2 <;>
        simp [obfuscate_private_packages, List.isEmpty_iff, hp] at hmem <;>
        exact ⟨rfl, hmem.2.1, hmem.1⟩

/-- Witness for C7 at a concrete successful run. -/
theorem claim_C7_witness :
    (∃ rest, obfuscate_private_packages { private_packages := ["pkg"] }
        [] "tmp" none none =
      ObfEvent.createTempDir "tmp" ::
        ObfEvent.newExtractor "poetry" ::
        ObfEvent.extractPackages "tmp" ["pkg"] [] ::
        ObfEvent.newObfuscator "nuitka3" ::
        ObfEvent.obfuscatePackages ["pkg"] "tmp" none :: rest) ∧
    ("tmp" = "tmp" ∧ ["pkg"] = ["pkg"]) := by
  have h := claim_C7 { private_packages := ["pkg"] } [] "tmp" none none
  refine ⟨?_, rfl, rfl⟩
  have := h.1 rfl (by decide)
  simpa using this

/-- C2: the `include_specifiers` value handed to the exporter is the
negation of the `--exclude-specifiers` flag, and rendering `foo==1.0`
without specifiers yields the bare name `foo`; end to end, exporting a
manifest holding `foo==1.0` under `--exclude-specifiers` prints exactly
`foo`. -/
theorem claim_C2 (opts : ExportOptions) (b : Bool) :
    exporterIncludeSpecifiers opts = !opts.exclude_specifiers ∧
    render { name := "foo", version_constraint := some "==1.0" } false b =
      "foo" ∧
    poetry_to_requirements { exclude_specifiers := true } []
        ⟨[{ name := "foo", version_constraint := some "==1.0" }], []⟩ =
      [SinkEvent.printLine "foo"] := by
  refine ⟨rfl, ?_, by decide⟩
  cases b <;> decide

/-- C3 fails on the code: the export command has no dedicated exclude
flag; with `--private-packages` supplying no names and the config file
naming `secret`, the exclusion set handed to the exporter is
`["secret"]`, not the (empty) flag value — and the matching manifest
entry is indeed dropped from the output. -/
theorem claim_C3_counterexample :
    excludeForExport { private_packages := [] } ["secret"] = ["secret"] ∧
    ExportOptions.private_packages { private_packages := [] } = [] ∧
    poetry_to_requirements { private_packages := [] } ["secret"]
        ⟨[{ name := "secret", version_constraint := some "==1.0" }], []⟩ =
      [] := by
  refine ⟨rfl, rfl, by decide⟩

/-- C3 (amended): the exclusion set passed to the exporter equals the
`--private-packages` flag values when that flag supplied any, and
otherwise the private-package names read from the config file. -/
theorem claim_C3 (opts : ExportOptions) (cfg : List String) :
    (opts.private_packages ≠ [] →
      excludeForExport opts cfg = opts.private_packages) ∧
    (opts.private_packages = [] → excludeForExport opts cfg = cfg) := by
  constructor
  · intro h
    simp [excludeForExport, h]
  · intro h
    simp [excludeForExport, h]

/-- Witness for C3 at both branches. -/
theorem claim_C3_witness :
    excludeForExport { private_packages := ["a"] } ["b"] = ["a"] ∧
    excludeForExport { private_packages := [] } ["b"] = ["b"] :=
  ⟨(claim_C3 { private_packages := ["a"] } ["b"]).1 (by decide),
   (claim_C3 { private_packages := [] } ["b"]).2 rfl⟩

/-- The writes a file-mode export trace makes to its output file are
exactly the rendered lines, each with one newline appended. -/
theorem fileWrites_full_trace (path : String) (lines : List String) :
    fileWrites path (SinkEvent.openFile path ::
        lines.map (fun l => SinkEvent.writeFile path (l ++ "\n")) ++
        [SinkEvent.closeFile path]) =
      lines.map (fun l => l ++ "\n") := by
  induction lines with
  | nil => rfl
  | cons a t ih => simpa [fileWrites] using ih

/-- C1: the exporter core only ever invokes the caller-supplied sink —
with the output option empty (its default) the trace is exactly one
`print` per rendered line, in order; otherwise the named file is opened
and each rendered line is written followed by exactly one newline, in
callback-invocation order. -/
theorem claim_C1 (opts : ExportOptions) (cfg : List String)
    (st : PoetryState) :
    (opts.output = "" →
      poetry_to_requirements opts cfg st =
        (exportLines st (exporterIncludeSpecifiers opts)
          opts.include_comments (excludeForExport opts cfg)
          opts.include_dev_requirements opts.extra_requirements
          opts.markers).map SinkEvent.printLine) ∧
    (opts.output ≠ "" →
      poetry_to_requirements opts cfg st =
        SinkEvent.openFile opts.output ::
          (exportLines st (exporterIncludeSpecifiers opts)
            opts.include_comments (excludeForExport opts cfg)
            opts.include_dev_requirements opts.extra_requirements
            opts.markers).map
              (fun l => SinkEvent.writeFile opts.output (l ++ "\n")) ++
          [SinkEvent.closeFile opts.output] ∧
      fileWrites opts.output (poetry_to_requirements opts cfg st) =
        (exportLines st (exporterIncludeSpecifiers opts)
          opts.include_comments (excludeForExport opts cfg)
          opts.include_dev_requirements opts.extra_requirements
          opts.markers).map (fun l => l ++ "\n")) := by
  constructor
  · intro h
    simp [poetry_to_requirements, export_to_requirements_txt, h]
  · intro h
    have htr : poetry_to_requirements opts cfg st =
        SinkEvent.openFile opts.output ::
          (exportLines st (exporterIncludeSpecifiers opts)
            opts.include_comments (excludeForExport opts cfg)
            opts.include_dev_requirements opts.extra_requirements
            opts.markers).map
              (fun l => SinkEvent.writeFile opts.output (l ++ "\n")) ++
          [SinkEvent.closeFile opts.output] := by
      simp [poetry_to_requirements, export_to_requirements_txt, h]
    refine ⟨htr, ?_⟩
    rw [htr]
    exact fileWrites_full_trace opts.output _

/-- Witness for C1: a file export of one manifest entry opens the file,
writes the line plus one newline, and closes it. -/
theorem claim_C1_witness :
    poetry_to_requirements { output := "reqs.txt" } []
        ⟨[{ name := "foo", version_constraint := some "==1.0" }], []⟩ =
      [SinkEvent.openFile "reqs.txt",
       SinkEvent.writeFile "reqs.txt" "foo==1.0\n",
       SinkEvent.closeFile "reqs.txt"] ∧
    fileWrites "reqs.txt"
        (poetry_to_requirements { output := "reqs.txt" } []
          ⟨[{ name := "foo", version_constraint := some "==1.0" }], []⟩) =
      ["foo==1.0\n"] := by
  have h := (claim_C1 { output := "reqs.txt" } []
    ⟨[{ name := "foo", version_constraint := some "==1.0" }], []⟩).2
    (by decide)
  exact ⟨h.1.trans (by decide), h.2.trans (by decide)⟩

/-- C5: every line delivered to the sink is the rendering of a spec
whose normalized name is not in the (normalized) exclusion set. -/
theorem claim_C5 (st : PoetryState) (incS incC include_dev : Bool)
    (exclude extras markers : List String) :
    ∀ line ∈ exportLines st incS incC exclude include_dev extras markers,
      ∃ s : RequirementSpec, line = render s incS incC ∧
        normName s.name ∉ exclude.map normName := by
  intro line hline
  simp only [exportLines, List.mem_map] at hline
  obtain ⟨s, hs, rfl⟩ := hline
  refine ⟨s, rfl, ?_⟩
  simp only [exportSpecs, List.mem_filter, Bool.and_eq_true,
    Bool.not_eq_true'] at hs
  have hc := hs.2.1
  intro hmem
  simp only [List.contains, List.elem_eq_mem, decide_eq_false_iff_not] at hc
  exact hc hmem

/-- Witness for C5: a surviving line of a concrete export with a
non-empty exclusion set. -/
theorem claim_C5_witness :
    ∃ s : RequirementSpec, "foo==1.0" = render s true false ∧
      normName s.name ∉ ["bar"].map normName :=
  claim_C5 ⟨[{ name := "foo", version_constraint := some "==1.0" },
             { name := "bar", version_constraint := some "==2.0" }], []⟩
    true false false ["bar"] [] [] "foo==1.0" (by decide)

/-- C8: any input line that is, after stripping, a VCS/URL-style
requirement (` @ ` infix) or an include directive (`-r ` prefix) — and
is not a blank or comment line — is parsed to the distinct
`unsupported` result rather than silently dropped. -/
theorem claim_C8 (line : String)
    (h1 : trim line.data ≠ [])
    (h2 : (trim line.data).head? ≠ some '#')
    (h3 : (hasSublist [' ', '@', ' '] (trim line.data) ||
      isPre ['-', 'r', ' '] (trim line.data)) = true) :
    parse line = ParseResult.unsupported := by
  simp only [parse, parseChars, parseBody]
  rw [if_neg h1, if_neg h2, if_pos h3]

/-- Witness for C8: a URL-style line and an include directive. -/
theorem claim_C8_witness :
    parse "package @ https://example.com/pkg.git" =
      ParseResult.unsupported ∧
    parse "-r other_file.txt" = ParseResult.unsupported :=
  ⟨claim_C8 "package @ https://example.com/pkg.git" (by decide) (by decide)
    (by decide),
   claim_C8 "-r other_file.txt" (by decide) (by decide) (by decide)⟩

/-- C4 fails as universally stated: for the all-fields-populated spec
`foo==1.0 ; a#b # c` whose marker contains `#`, parsing the rendered
line splits the comment at the first `#`, inside the marker — the
parsed marker is `a` and the comment `b # c`, not the originals. -/
theorem claim_C4_counterexample :
    parse (render { name := "foo",
                    version_constraint := some "==1.0",
                    environment_marker := some "a#b",
                    comment := some "c" }
      true true) =
      ParseResult.ok { name := "foo",
                       version_constraint := some "==1.0",
                       environment_marker := some "a",
                       comment := some "b # c" } ∧
    (some "a" : Option String) ≠ some "a#b" :=
  ⟨by decide, by decide⟩

/-- C4 (amended): the parse-render round trip reproduces name,
constraint, marker and comment exactly for specs whose populated fields
are well-formed requirement components: the name nonempty, stripped,
free of `#`, `;`, `@` and operator characters, and not starting with
`-`; the constraint stripped, starting with a constraint operator and
free of `#`, `;`, `@`; the marker stripped and free of `#`, `@`; the
comment nonempty, stripped and free of `@`. -/
theorem claim_C4 (n v m c : String) (d : Bool)
    (hn0 : n.data ≠ [])
    (hnt : trim n.data = n.data)
    (hn_hash : '#' ∉ n.data) (hn_semi : ';' ∉ n.data)
    (hn_at : '@' ∉ n.data)
    (hn_op : ∀ x ∈ n.data, x ∉ opChars)
    (hn_head : n.data.head? ≠ some '-')
    (hvt : trim v.data = v.data) (hvo : isOpStart v.data = true)
    (hv_hash : '#' ∉ v.data) (hv_semi : ';' ∉ v.data)
    (hv_at : '@' ∉ v.data)
    (hmt : trim m.data = m.data)
    (hm_hash : '#' ∉ m.data) (hm_at : '@' ∉ m.data)
    (hc0 : c.data ≠ [])
    (hct : trim c.data = c.data) (hc_at : '@' ∉ c.data) :
    parse (render { name := n,
                    version_constraint := some v,
                    environment_marker := some m,
                    comment := some c,
                    is_dev := d }
      true true) =
      ParseResult.ok { name := n,
                       version_constraint := some v,
                       environment_marker := some m,
                       comment := some c } := by
  obtain ⟨a, n', hn⟩ : ∃ a n', n.data = a :: n' := by
    cases hx : n.data with
    | nil => exact absurd hx hn0
    | cons a n' => exact ⟨a, n', rfl⟩
  obtain ⟨c', cl, hc⟩ : ∃ c' cl, c.data = c' ++ [cl] := by
    rcases List.eq_nil_or_concat' c.data with hx | ⟨c', cl, hx⟩
    · exact absurd hx hc0
    · exact ⟨c', cl, hx⟩
  have hwa : ws a = false := ws_head_false_of_trim (hn ▸ hnt)
  have hwcl : ws cl = false := ws_last_false_of_trim (hc ▸ hct)
  have hrend : (render { name := n,
                         version_constraint := some v,
                         environment_marker := some m,
                         comment := some c,
                         is_dev := d }
      true true).data =
      a :: ((n' ++ v.data ++ (' ' :: ';' :: ' ' :: m.data) ++
        (' ' :: '#' :: ' ' :: c')) ++ [cl]) := by
    simp [render, renderChars, hn, hc, List.append_assoc]
  simp only [parse, parseChars]
  rw [hrend]
  rw [trim_sandwich _ hwa hwcl]
  -- guard facts
  have hn_hash' : '#' ∉ a :: n' := hn ▸ hn_hash
  have hg2 : (a :: ((n' ++ v.data ++ (' ' :: ';' :: ' ' :: m.data) ++
      (' ' :: '#' :: ' ' :: c')) ++ [cl])).head? ≠ some '#' := by
    have hne : a ≠ '#' := fun he =>
      hn_hash' (List.mem_cons.mpr (Or.inl he.symm))
    simp [hne]
  have hTdata : a :: ((n' ++ v.data ++ (' ' :: ';' :: ' ' :: m.data) ++
      (' ' :: '#' :: ' ' :: c')) ++ [cl]) =
      n.data ++ v.data ++ (' ' :: ';' :: ' ' :: m.data) ++
        (' ' :: '#' :: ' ' :: c.data) := by
    rw [hn, hc]
    simp [List.append_assoc]
  have hatT : '@' ∉ a :: ((n' ++ v.data ++ (' ' :: ';' :: ' ' :: m.data) ++
      (' ' :: '#' :: ' ' :: c')) ++ [cl]) := by
    rw [hTdata]
    intro hx
    simp only [List.mem_append, List.mem_cons, List.not_mem_nil, or_false] at hx
    rcases hx with ((hx | hx) | hx | hx | hx | hx) | hx | hx | hx | hx
    · exact hn_at hx
    · exact hv_at hx
    · exact absurd hx (by decide)
    · exact absurd hx (by decide)
    · exact absurd hx (by decide)
    · exact hm_at hx
    · exact absurd hx (by decide)
    · exact absurd hx (by decide)
    · exact absurd hx (by decide)
    · exact hc_at hx
  have hsub : hasSublist [' ', '@', ' ']
      (a :: ((n' ++ v.data ++ (' ' :: ';' :: ' ' :: m.data) ++
        (' ' :: '#' :: ' ' :: c')) ++ [cl])) = false :=
    hasSublist_false_of_not_mem (by simp) hatT
  have hpre : isPre ['-', 'r', ' ']
      (a :: ((n' ++ v.data ++ (' ' :: ';' :: ' ' :: m.data) ++
        (' ' :: '#' :: ' ' :: c')) ++ [cl])) = false := by
    have hna : a ≠ '-' := by
      rw [hn] at hn_head
      simpa using hn_head
    simp [isPre, Ne.symm hna]
  -- comment split
  have hX1 : '#' ∉ a :: (n' ++ v.data ++ (' ' :: ';' :: ' ' :: m.data) ++
      [' ']) := by
    intro hx
    simp only [List.mem_append, List.mem_cons, List.not_mem_nil, or_false] at hx
    rcases hx with hx | ((hx | hx) | hx | hx | hx | hx) | hx
    · exact hn_hash' (List.mem_cons.mpr (Or.inl hx))
    · exact hn_hash' (List.mem_cons.mpr (Or.inr hx))
    · exact hv_hash hx
    · exact absurd hx (by decide)
    · exact absurd hx (by decide)
    · exact absurd hx (by decide)
    · exact hm_hash hx
    · exact absurd hx (by decide)
  have hshape1 : a :: ((n' ++ v.data ++ (' ' :: ';' :: ' ' :: m.data) ++
      (' ' :: '#' :: ' ' :: c')) ++ [cl]) =
      (a :: (n' ++ v.data ++ (' ' :: ';' :: ' ' :: m.data) ++ [' '])) ++
        '#' :: (' ' :: c.data) := by
    rw [hc]
    simp [List.append_assoc]
  have h1 : splitFirst '#'
      (a :: ((n' ++ v.data ++ (' ' :: ';' :: ' ' :: m.data) ++
        (' ' :: '#' :: ' ' :: c')) ++ [cl])) =
      some (a :: (n' ++ v.data ++ (' ' :: ';' :: ' ' :: m.data) ++ [' ']),
        ' ' :: c.data) := by
    rw [hshape1]
    exact splitFirst_append _ hX1
  have hctrim : trim (' ' :: c.data) = c.data := by
    rw [trim_space_cons]; exact hct
  -- marker split
  have hX2 : ';' ∉ a :: (n' ++ (v.data ++ [' '])) := by
    intro hx
    simp only [List.mem_append, List.mem_cons, List.not_mem_nil, or_false] at hx
    rcases hx with hx | hx | hx | hx
    · exact (hn ▸ hn_semi) (List.mem_cons.mpr (Or.inl hx))
    · exact (hn ▸ hn_semi) (List.mem_cons.mpr (Or.inr hx))
    · exact hv_semi hx
    · exact absurd hx (by decide)
  have hshape2 : a :: (n' ++ v.data ++ (' ' :: ';' :: ' ' :: m.data) ++
      [' ']) =
      (a :: (n' ++ (v.data ++ [' ']))) ++ ';' :: (' ' :: (m.data ++ [' '])) := by
    simp [List.append_assoc]
  have h2 : splitFirst ';'
      (a :: (n' ++ v.data ++ (' ' :: ';' :: ' ' :: m.data) ++ [' '])) =
      some (a :: (n' ++ (v.data ++ [' '])), ' ' :: (m.data ++ [' '])) := by
    rw [hshape2]
    exact splitFirst_append _ hX2
  have hmtrim : trim (' ' :: (m.data ++ [' '])) = m.data := trim_space_wrap hmt
  -- name / version split
  have h3 : splitAtOp (a :: (n' ++ (v.data ++ [' ']))) =
      some (n.data, v.data ++ [' ']) := by
    have hshape3 : a :: (n' ++ (v.data ++ [' '])) =
        n.data ++ (v.data ++ [' ']) := by rw [hn]; rfl
    rw [hshape3]
    exact splitAtOp_append hn_op (isOpStart_append _ hvo)
  have hvtrim : trim (v.data ++ [' ']) = v.data := trim_concat_space hvt
  -- assemble
  simp only [parseBody, hsub, hpre, Bool.or_self, Bool.false_eq_true,
    if_false, h1, hctrim, parseSpecMarker, h2, hmtrim, parseNameVer, h3,
    hvtrim, hnt, Option.map_some]
  rw [if_neg (by simp), if_neg hg2]
  rfl




/-- Witness for C4 at the fully populated spec of Scenario A. -/
theorem claim_C4_witness :
    parse (render { name := "requests",
                    version_constraint := some ">=2.0,<3.0",
                    environment_marker := some "python_version",
                    comment := some "http client",
                    is_dev := true }
      true true) =
      ParseResult.ok { name := "requests",
                       version_constraint := some ">=2.0,<3.0",
                       environment_marker := some "python_version",
                       comment := some "http client" } :=
  claim_C4 "requests" ">=2.0,<3.0" "python_version" "http client" true
    (by decide) (by decide) (by decide) (by decide) (by decide) (by decide)
    (by decide) (by decide) (by decide) (by decide) (by decide) (by decide)
    (by decide) (by decide) (by decide) (by decide) (by decide) (by decide)

end Versifier
